import Mathlib

set_option maxRecDepth 100000

/-!
Shallow embedding of the NvTraceFormat trace-file codec
(`src/nv/NvTraceFormat.h`) and of the event-adaptation glue
(`src/gpuvis-nvtrc.cpp`).

Bytes are modelled as `Nat` values below 256, machine integers as `Nat`/`Int`
with explicit two's-complement conversions, the C++ `double` of the timestamp
converter as exact rationals (valid whenever every intermediate value is
exactly representable, as it is at every concrete input used below), and the
`std::ifstream` as a list of remaining bytes together with a good/fail flag
mirroring the stream state bits.
-/

namespace NvTraceFormat

/-- Little-endian encoding of a natural number into `w` bytes (the byte
image of an unsigned `w`-byte integer). -/
def toBytesLE : Nat → Nat → List Nat
  | 0, _ => []
  | w + 1, n => n % 256 :: toBytesLE w (n / 256)

/-- Little-endian decoding of a byte list into a natural number. -/
def fromBytesLE : List Nat → Nat
  | [] => 0
  | b :: bs => b + 256 * fromBytesLE bs

/-- Two's-complement image of an `Int` in an unsigned 32-bit word, as the
C++ cast `(int32_t)`/store of an `int32_t` produces it. -/
def natOfInt32 (x : Int) : Nat := (x % (2 ^ 32 : Int)).toNat

/-- Byte image of an `int32_t`, little endian. -/
def i32le (x : Int) : List Nat := toBytesLE 4 (natOfInt32 x)

/-- Reinterpretation of an unsigned 32-bit value as an `int32_t`. -/
def i32ofNat (n : Nat) : Int := if n < 2 ^ 31 then (n : Int) else (n : Int) - 2 ^ 32

/-- Two's-complement image of an `Int` in an unsigned 64-bit word. -/
def natOfInt64 (x : Int) : Nat := (x % (2 ^ 64 : Int)).toNat

/-- Byte image of an `int64_t`, little endian. -/
def i64le (x : Int) : List Nat := toBytesLE 8 (natOfInt64 x)

/-- Reinterpretation of an unsigned 64-bit value as an `int64_t`. -/
def i64ofNat (n : Nat) : Int := if n < 2 ^ 63 then (n : Int) else (n : Int) - 2 ^ 64

/-- Conversion of an `int32_t` to the 64-bit `size_t`, as the usual
arithmetic conversions perform it in `header.elementSize > sizeof(T)`:
negative values wrap to huge unsigned values. -/
def toSizeT (x : Int) : Nat := (x % (2 ^ 64 : Int)).toNat

/-- Byte image of the `nvtrc01Magic` constant `std::array<char, 8>{"nvtrc01"}`:
ASCII "nvtrc01" followed by the terminating zero byte. -/
def magicBytes : List Nat := [110, 118, 116, 114, 99, 48, 49, 0]

/-- Model of `struct DeviceDesc`: 16 uuid bytes, 239 name bytes, a one-byte
error enum, and four `int64_t` timestamps.  The struct has no padding
(offsets 0, 16, 255, 256, 264, 272, 280; size 288). -/
structure DeviceDesc where
  uuid : List Nat
  name : List Nat
  gpuCtxSwTraceError : Nat
  cpuTimestampStart : Int
  gpuTimestampStart : Int
  cpuTimestampEnd : Int
  gpuTimestampEnd : Int
deriving DecidableEq, Repr

/-- Model of `struct RecordGpuCtxSw`: `uint16` category, `uint16` type,
`uint32` processId, `int64` timestamp, `uint64` contextHandle.  The struct
has no padding (offsets 0, 2, 4, 8, 16; size 24). -/
structure RecordGpuCtxSw where
  category : Nat
  type : Nat
  processId : Nat
  timestamp : Int
  contextHandle : Nat
deriving DecidableEq, Repr

/-- Model of `struct FileData`. -/
structure FileData where
  deviceDescs : List DeviceDesc
  perDeviceData : List (List RecordGpuCtxSw)
deriving DecidableEq, Repr

/-- The value produced by `FileData()`: both vectors empty. -/
def emptyFileData : FileData := ⟨[], []⟩

/-- The value a `DeviceDesc` holds after value-initialization (all bytes
zero), which is what `std::vector::resize` default-inserts. -/
def zeroDeviceDesc : DeviceDesc :=
  ⟨List.replicate 16 0, List.replicate 239 0, 0, 0, 0, 0, 0⟩

/-- The value a `RecordGpuCtxSw` holds after value-initialization. -/
def zeroRecord : RecordGpuCtxSw := ⟨0, 0, 0, 0, 0⟩

/-- In-memory byte image of a `DeviceDesc` (288 bytes when well-formed). -/
def encodeDeviceDesc (d : DeviceDesc) : List Nat :=
  d.uuid ++ d.name ++ [d.gpuCtxSwTraceError] ++
    i64le d.cpuTimestampStart ++ i64le d.gpuTimestampStart ++
    i64le d.cpuTimestampEnd ++ i64le d.gpuTimestampEnd

/-- Reinterpretation of 288 raw bytes as a `DeviceDesc`, field by field in
declaration order (offsets 0, 16, 255, 256, 264, 272, 280). -/
def decodeDeviceDesc (bs : List Nat) : DeviceDesc :=
  let bs1 := bs.drop 16
  let bs2 := bs1.drop 239
  let bs3 := bs2.drop 1
  let bs4 := bs3.drop 8
  let bs5 := bs4.drop 8
  let bs6 := bs5.drop 8
  { uuid := bs.take 16
    name := bs1.take 239
    gpuCtxSwTraceError := bs2.headD 0
    cpuTimestampStart := i64ofNat (fromBytesLE (bs3.take 8))
    gpuTimestampStart := i64ofNat (fromBytesLE (bs4.take 8))
    cpuTimestampEnd := i64ofNat (fromBytesLE (bs5.take 8))
    gpuTimestampEnd := i64ofNat (fromBytesLE (bs6.take 8)) }

/-- In-memory byte image of a `RecordGpuCtxSw` (24 bytes when well-formed). -/
def encodeRecord (r : RecordGpuCtxSw) : List Nat :=
  toBytesLE 2 r.category ++ toBytesLE 2 r.type ++ toBytesLE 4 r.processId ++
    i64le r.timestamp ++ toBytesLE 8 r.contextHandle

/-- Reinterpretation of 24 raw bytes as a `RecordGpuCtxSw`, field by field
in declaration order (offsets 0, 2, 4, 8, 16). -/
def decodeRecord (bs : List Nat) : RecordGpuCtxSw :=
  let bs1 := bs.drop 2
  let bs2 := bs1.drop 2
  let bs3 := bs2.drop 4
  let bs4 := bs3.drop 8
  { category := fromBytesLE (bs.take 2)
    type := fromBytesLE (bs1.take 2)
    processId := fromBytesLE (bs2.take 4)
    timestamp := i64ofNat (fromBytesLE (bs3.take 8))
    contextHandle := fromBytesLE (bs4.take 8) }

/-- Well-formedness of an in-memory `DeviceDesc`: the fixed arrays have
their declared lengths, every byte fits a byte, the enum fits `uint8_t`,
and the timestamps fit `int64_t`. -/
def WFDeviceDesc (d : DeviceDesc) : Prop :=
  d.uuid.length = 16 ∧ (∀ b ∈ d.uuid, b < 256) ∧
  d.name.length = 239 ∧ (∀ b ∈ d.name, b < 256) ∧
  d.gpuCtxSwTraceError < 256 ∧
  (-2 ^ 63 ≤ d.cpuTimestampStart ∧ d.cpuTimestampStart < 2 ^ 63) ∧
  (-2 ^ 63 ≤ d.gpuTimestampStart ∧ d.gpuTimestampStart < 2 ^ 63) ∧
  (-2 ^ 63 ≤ d.cpuTimestampEnd ∧ d.cpuTimestampEnd < 2 ^ 63) ∧
  (-2 ^ 63 ≤ d.gpuTimestampEnd ∧ d.gpuTimestampEnd < 2 ^ 63)

instance (d : DeviceDesc) : Decidable (WFDeviceDesc d) := by
  unfold WFDeviceDesc; infer_instance

/-- Well-formedness of an in-memory `RecordGpuCtxSw`: each field fits its
declared machine type. -/
def WFRecord (r : RecordGpuCtxSw) : Prop :=
  r.category < 2 ^ 16 ∧ r.type < 2 ^ 16 ∧ r.processId < 2 ^ 32 ∧
  (-2 ^ 63 ≤ r.timestamp ∧ r.timestamp < 2 ^ 63) ∧ r.contextHandle < 2 ^ 64

instance (r : RecordGpuCtxSw) : Decidable (WFRecord r) := by
  unfold WFRecord; infer_instance

/-- Model of the `std::ifstream` during decode: the bytes not yet consumed
and a flag that is false once failbit/eofbit is set. -/
structure CStream where
  rem : List Nat
  good : Bool
deriving DecidableEq, Repr

/-- Model of `ifs.read(dst, n)`: on a good stream it consumes and returns
`n` bytes, or, when fewer are available, returns what is there and fails the
stream; on an already-failed stream it is a no-op returning nothing. -/
def readBytes (n : Nat) (s : CStream) : List Nat × CStream :=
  if s.good then
    if n ≤ s.rem.length then (s.rem.take n, ⟨s.rem.drop n, true⟩)
    else (s.rem, ⟨[], false⟩)
  else ([], s)

/-- Model of `std::vector::resize(n)`: keep the first `n` elements and
value-initialize any new ones. -/
def resizeL {T : Type} (buf : List T) (n : Nat) (dflt : T) : List T :=
  buf.take n ++ List.replicate (n - buf.length) dflt

/-- Outcome of `ReadVector(ifs, buffer)`: the C++ function returns a bool
and mutates `buffer` and the stream in place, so both result values carry
the final buffer and stream; `thrown` marks the paths on which the C++ has
no defined bool result (negative count makes `resize` throw `length_error`;
a `count * elementSize` product overflowing `int` is undefined behavior). -/
inductive VecOutcome (T : Type) where
  | ok (buffer : List T) (s : CStream)
  | fail (buffer : List T) (s : CStream)
  | thrown
deriving DecidableEq, Repr

/-- True exactly on the successful outcome. -/
def VecOutcome.isOk {T : Type} : VecOutcome T → Bool
  | .ok _ _ => true
  | _ => false

/-- One pass of the loop of the `elementSize > sizeof(T)` branch of
`ReadVector`: `ifs.read(&elem, sizeof(T))` once per element.  Elements are
value-initialized by the preceding `resize`, so a short or failed read
leaves the unwritten trailing bytes of an element zero. -/
def readLoop {T : Type} (esize : Nat) (dec : List Nat → T) :
    Nat → CStream → List T × CStream
  | 0, s => ([], s)
  | n + 1, s =>
    let rb := readBytes esize s
    let elem := dec (rb.1 ++ List.replicate (esize - rb.1.length) 0)
    let rest := readLoop esize dec n rb.2
    (elem :: rest.1, rest.2)

/-- Splitting of `count * esize` raw buffer bytes into `count` elements of
`esize` bytes each, as the bulk `ifs.read` of the equal-size branch fills
contiguous vector storage. -/
def decodeChunks {T : Type} (esize : Nat) (dec : List Nat → T) :
    Nat → List Nat → List T
  | 0, _ => []
  | n + 1, raw => dec (raw.take esize) :: decodeChunks esize dec n (raw.drop esize)

/-- Model of `ReadVector<T>(ifs, buffer)` from NvTraceFormat.h, for a record
type of native size `esize` whose reinterpretation from raw bytes is `dec`
and whose value-initialized value is `dflt`.  It mirrors the source line by
line: read the `ArrayHeader`, bail out if the stream failed, resize the
buffer to `count`, then branch on `elementSize` compared (after the C++
int-to-size_t conversion) with the native size. -/
def ReadVector {T : Type} (esize : Nat) (dec : List Nat → T) (dflt : T)
    (s : CStream) (buffer : List T) : VecOutcome T :=
  let rb := readBytes 8 s
  let s1 := rb.2
  let count : Int := i32ofNat (fromBytesLE (rb.1.take 4))
  let esz : Int := i32ofNat (fromBytesLE ((rb.1.drop 4).take 4))
  if s1.good = false then .fail buffer s1
  else if count < 0 then .thrown
  else
    let buf1 := resizeL buffer count.toNat dflt
    let eszU := toSizeT esz
    if eszU = esize then
      if (2 ^ 31 : Int) ≤ count * esz then .thrown
      else
        let total := (count * esz).toNat
        let rb2 := readBytes total s1
        let raw := rb2.1 ++ List.replicate (total - rb2.1.length) 0
        let buf2 := decodeChunks esize dec count.toNat raw
        if rb2.2.good then .ok buf2 rb2.2 else .fail buf2 rb2.2
    else if esize < eszU then
      let r := readLoop esize dec count.toNat s1
      if r.2.good then .ok r.1 r.2 else .fail r.1 r.2
    else
      .fail buf1 s1

/-- Outcome of `ReadFileData`: the function returns a bool and leaves its
decode state in the `FileData&` out-parameter, so both result values carry
the out-parameter's final contents; `thrown` propagates a `VecOutcome.thrown`. -/
inductive DecodeOutcome where
  | success (fd : FileData)
  | failure (fd : FileData)
  | thrown
deriving DecidableEq, Repr

/-- Outcome of the per-device loop of `ReadFileData`, carrying the final
`perDeviceData` contents and stream. -/
inductive LoopOutcome where
  | ok (pdd : List (List RecordGpuCtxSw)) (s : CStream)
  | fail (pdd : List (List RecordGpuCtxSw)) (s : CStream)
  | thrown
deriving DecidableEq, Repr

/-- The `for (auto& deviceData : fileData.perDeviceData)` loop of
`ReadFileData`: each element is read with `ReadVector` in order; the first
failure returns immediately, leaving later elements untouched. -/
def readDevLoop : List (List RecordGpuCtxSw) → CStream → LoopOutcome
  | [], s => .ok [] s
  | b :: bs, s =>
    match ReadVector 24 decodeRecord zeroRecord s b with
    | .thrown => .thrown
    | .fail buf s' => .fail (buf :: bs) s'
    | .ok buf s' =>
      match readDevLoop bs s' with
      | .thrown => .thrown
      | .fail rest s'' => .fail (buf :: rest) s''
      | .ok rest s'' => .ok (buf :: rest) s''

/-- Model of `ReadFileData(inputFile, fileData)` on the byte contents `s0`
of an openable input file (open failure is an I/O condition outside the
byte-level model).  `fd0` is the caller's prior out-parameter value; the
source's first statement `fileData = FileData()` discards it. -/
def ReadFileData (s0 : List Nat) (fd0 : FileData) : DecodeOutcome :=
  let _ := fd0
  let fd := emptyFileData
  let s : CStream := ⟨s0, true⟩
  let rb := readBytes 8 s
  if rb.2.good = false then .failure fd
  else if rb.1 ≠ magicBytes then .failure fd
  else
    match ReadVector 288 decodeDeviceDesc zeroDeviceDesc rb.2 fd.deviceDescs with
    | .thrown => .thrown
    | .fail buf _ => .failure { fd with deviceDescs := buf }
    | .ok buf s2 =>
      match readDevLoop (List.replicate buf.length []) s2 with
      | .thrown => .thrown
      | .fail pdd _ => .failure ⟨buf, pdd⟩
      | .ok pdd _ => .success ⟨buf, pdd⟩

/-- Model of `WriteVector<T>(ofs, buffer)`: the `ArrayHeader` with the
int32 count and element size, then the elements' raw bytes back to back.
Valid as written whenever `count * elementSize` does not overflow `int`
(the theorems below carry that bound as a hypothesis). -/
def WriteVector {T : Type} (esize : Nat) (enc : T → List Nat)
    (buf : List T) : List Nat :=
  i32le (buf.length : Int) ++ i32le (esize : Int) ++ (buf.map enc).flatten

/-- Model of `WriteFileData(outputFile, fileData)`: the bytes written to an
openable output file (open/write failure is an I/O condition outside the
byte-level model): magic header, device-descriptor array, then each
device's record array in order. -/
def WriteFileData (fd : FileData) : List Nat :=
  magicBytes ++ WriteVector 288 encodeDeviceDesc fd.deviceDescs ++
    (fd.perDeviceData.map (WriteVector 24 encodeRecord)).flatten

/-- Truncation of a rational toward zero, the semantics of the C++ cast
`static_cast<int64_t>(double)`. -/
def ratTrunc (q : ℚ) : ℤ := if 0 ≤ q then ⌊q⌋ else ⌈q⌉

/-- Model of `struct TimestampConverter`, with the `double scale` carried as
an exact rational (faithful whenever the doubles involved are exactly
representable). -/
structure TimestampConverter where
  dstAtSyncPoint : Int
  srcAtSyncPoint : Int
  scale : ℚ
deriving DecidableEq, Repr

/-- Model of `TimestampConverter::operator()`: the source delta, scaled,
cast back to `int64_t` (truncation toward zero), plus the destination
anchor. -/
def TimestampConverter.apply (c : TimestampConverter) (srcTimestamp : Int) : Int :=
  let srcDelta := srcTimestamp - c.srcAtSyncPoint
  let dstDelta := ratTrunc (c.scale * (srcDelta : ℚ))
  dstDelta + c.dstAtSyncPoint

/-- Model of `CreateTimestampConverter(srcStart, srcEnd, dstStart, dstEnd)`:
scale is the destination delta over the source delta, or zero when the
source delta is zero; the anchors are the end-of-capture sync points. -/
def CreateTimestampConverter (srcStart srcEnd dstStart dstEnd : Int) :
    TimestampConverter :=
  let dstDelta := dstEnd - dstStart
  let srcDelta := srcEnd - srcStart
  let scale : ℚ := if srcDelta = 0 then 0 else (dstDelta : ℚ) / (srcDelta : ℚ)
  ⟨dstEnd, srcEnd, scale⟩

/-- The spec's scale formula, written from the spec's words in section 4.3
for comparison with the code model:
scale is (dstEnd - dstStart) / (srcEnd - srcStart), and 0 when srcEnd equals
srcStart. -/
def specScale (srcStart srcEnd dstStart dstEnd : Int) : ℚ :=
  if srcEnd = srcStart then 0 else ((dstEnd - dstStart : Int) : ℚ) / ((srcEnd - srcStart : Int) : ℚ)

/-- The claim C2 conversion formula, written from the spec's words:
round((x - srcAtSyncPoint) * scale) + dstAtSyncPoint with srcAtSyncPoint =
srcEnd and dstAtSyncPoint = dstEnd, rounding to nearest. -/
def specApplyRound (srcStart srcEnd dstStart dstEnd x : Int) : Int :=
  round (((x - srcEnd : Int) : ℚ) * specScale srcStart srcEnd dstStart dstEnd) + dstEnd

/-- The amended conversion formula: as C2 states it but with truncation
toward zero in place of rounding to nearest. -/
def specApplyTrunc (srcStart srcEnd dstStart dstEnd x : Int) : Int :=
  ratTrunc (((x - srcEnd : Int) : ℚ) * specScale srcStart srcEnd dstStart dstEnd) + dstEnd

/-- Model of `SetName(desc, name)`: copy at most 238 bytes of the name into
the 239-byte field, write a null terminator right after them, and leave the
bytes beyond the terminator unchanged. -/
def SetName (desc : DeviceDesc) (name : List Nat) : DeviceDesc :=
  let indexOfNull := min name.length (239 - 1)
  { desc with name := name.take indexOfNull ++ [0] ++ desc.name.drop (indexOfNull + 1) }

/-- The fixed label array `namehack` of `adapt_events` in gpuvis-nvtrc.cpp. -/
def namehack : List String := ["Invalid", "ContextSwitchedIn", "ContextSwitchedOut"]

/-- The event-name lookup of `adapt_events`: the C++ indexes
`namehack[int(record.type)]`; `none` models the out-of-bounds access the
raw array indexing would perform for types outside the array. -/
def adaptedEventName (record : RecordGpuCtxSw) : Option String :=
  namehack[record.type]?

theorem length_toBytesLE (w n : Nat) : (toBytesLE w n).length = w := by
  induction w generalizing n with
  | zero => rfl
  | succ k ih => simp [toBytesLE, ih]

theorem fromBytesLE_toBytesLE (w n : Nat) (h : n < 2 ^ (8 * w)) :
    fromBytesLE (toBytesLE w n) = n := by
  induction w generalizing n with
  | zero =>
      have h0 : n = 0 := by
        have h1 : n < 1 := by simpa using h
        omega
      simp [toBytesLE, fromBytesLE, h0]
  | succ k ih =>
      have hd : n / 256 < 2 ^ (8 * k) := by
        rw [Nat.div_lt_iff_lt_mul (by norm_num : 0 < 256)]
        calc n < 2 ^ (8 * (k + 1)) := h
          _ = 2 ^ (8 * k) * 256 := by rw [Nat.mul_succ, pow_add]; norm_num
      simp only [toBytesLE, fromBytesLE, ih _ hd]
      omega

theorem natOfInt32_lt (x : Int) : natOfInt32 x < 2 ^ 32 := by
  unfold natOfInt32
  have h1 : x % (2 ^ 32 : Int) < 2 ^ 32 := Int.emod_lt_of_pos x (by norm_num)
  have h2 : 0 ≤ x % (2 ^ 32 : Int) := Int.emod_nonneg x (by norm_num)
  have e : ((2 : Int) ^ 32) = 4294967296 := by norm_num
  rw [e] at h1 h2
  have e2 : ((2 : Nat) ^ 32) = 4294967296 := by norm_num
  rw [e2]
  omega

theorem natOfInt64_lt (x : Int) : natOfInt64 x < 2 ^ 64 := by
  unfold natOfInt64
  have h1 : x % (2 ^ 64 : Int) < 2 ^ 64 := Int.emod_lt_of_pos x (by norm_num)
  have h2 : 0 ≤ x % (2 ^ 64 : Int) := Int.emod_nonneg x (by norm_num)
  have e : ((2 : Int) ^ 64) = 18446744073709551616 := by norm_num
  rw [e] at h1 h2
  have e2 : ((2 : Nat) ^ 64) = 18446744073709551616 := by norm_num
  rw [e2]
  omega

theorem i32_roundtrip (x : Int) (h1 : -2 ^ 31 ≤ x) (h2 : x < 2 ^ 31) :
    i32ofNat (fromBytesLE (i32le x)) = x := by
  unfold i32le
  rw [fromBytesLE_toBytesLE 4 _ (by simpa using natOfInt32_lt x)]
  unfold i32ofNat natOfInt32
  have e32 : ((2 : Int) ^ 32) = 4294967296 := by norm_num
  have e31 : ((2 : Int) ^ 31) = 2147483648 := by norm_num
  have e31n : ((2 : Nat) ^ 31) = 2147483648 := by norm_num
  rw [e32, e31n, e32] at *
  rw [e31] at h1 h2
  split <;> omega

theorem i64_roundtrip (x : Int) (h1 : -2 ^ 63 ≤ x) (h2 : x < 2 ^ 63) :
    i64ofNat (fromBytesLE (i64le x)) = x := by
  unfold i64le
  rw [fromBytesLE_toBytesLE 8 _ (by simpa using natOfInt64_lt x)]
  unfold i64ofNat natOfInt64
  have e64 : ((2 : Int) ^ 64) = 18446744073709551616 := by norm_num
  have e63 : ((2 : Int) ^ 63) = 9223372036854775808 := by norm_num
  have e63n : ((2 : Nat) ^ 63) = 9223372036854775808 := by norm_num
  rw [e64, e63n, e64] at *
  rw [e63] at h1 h2
  split <;> omega

theorem toSizeT_coe (n : Nat) (h : n < 2 ^ 64) : toSizeT (n : Int) = n := by
  unfold toSizeT
  rw [Int.emod_eq_of_lt (by positivity) (by exact_mod_cast h)]
  simp

theorem length_i32le (x : Int) : (i32le x).length = 4 := length_toBytesLE 4 _

theorem length_i64le (x : Int) : (i64le x).length = 8 := length_toBytesLE 8 _

theorem take_append_len {α : Type} (a b : List α) {n : Nat} (h : a.length = n) :
    (a ++ b).take n = a := by
  subst h; simp

theorem drop_append_len {α : Type} (a b : List α) {n : Nat} (h : a.length = n) :
    (a ++ b).drop n = b := by
  subst h; simp

theorem take_len {α : Type} (a : List α) {n : Nat} (h : a.length = n) :
    a.take n = a := by
  subst h; exact List.take_length a

theorem length_encodeRecord (r : RecordGpuCtxSw) : (encodeRecord r).length = 24 := by
  simp [encodeRecord, length_toBytesLE, length_i64le]

theorem length_encodeDeviceDesc (d : DeviceDesc) (h : WFDeviceDesc d) :
    (encodeDeviceDesc d).length = 288 := by
  obtain ⟨h1, -, h3, -⟩ := h
  simp [encodeDeviceDesc, length_i64le, h1, h3]

theorem decodeRecord_encodeRecord (r : RecordGpuCtxSw) (h : WFRecord r) :
    decodeRecord (encodeRecord r) = r := by
  obtain ⟨h1, h2, h3, ⟨h4a, h4b⟩, h5⟩ := h
  unfold encodeRecord decodeRecord
  simp only [List.append_assoc]
  rw [take_append_len _ _ (length_toBytesLE 2 _), drop_append_len _ _ (length_toBytesLE 2 _),
      take_append_len _ _ (length_toBytesLE 2 _), drop_append_len _ _ (length_toBytesLE 2 _),
      take_append_len _ _ (length_toBytesLE 4 _), drop_append_len _ _ (length_toBytesLE 4 _),
      take_append_len _ _ (length_i64le _), drop_append_len _ _ (length_i64le _),
      take_len _ (length_toBytesLE 8 _)]
  rw [fromBytesLE_toBytesLE 2 _ (by simpa using h1), fromBytesLE_toBytesLE 2 _ (by simpa using h2),
      fromBytesLE_toBytesLE 4 _ (by simpa using h3), fromBytesLE_toBytesLE 8 _ (by simpa using h5),
      i64_roundtrip _ h4a h4b]

theorem decodeDeviceDesc_encodeDeviceDesc (d : DeviceDesc) (h : WFDeviceDesc d) :
    decodeDeviceDesc (encodeDeviceDesc d) = d := by
  obtain ⟨h1, -, h3, -, -, ⟨h6a, h6b⟩, ⟨h7a, h7b⟩, ⟨h8a, h8b⟩, ⟨h9a, h9b⟩⟩ := h
  unfold encodeDeviceDesc decodeDeviceDesc
  simp only [List.append_assoc]
  rw [take_append_len _ _ h1, drop_append_len _ _ h1,
      take_append_len _ _ h3, drop_append_len _ _ h3,
      drop_append_len _ _ (by simp : [d.gpuCtxSwTraceError].length = 1),
      take_append_len _ _ (length_i64le _), drop_append_len _ _ (length_i64le _),
      take_append_len _ _ (length_i64le _), drop_append_len _ _ (length_i64le _),
      take_append_len _ _ (length_i64le _), drop_append_len _ _ (length_i64le _),
      take_len _ (length_i64le _)]
  simp only [List.headD_cons, List.cons_append]
  rw [i64_roundtrip _ h6a h6b, i64_roundtrip _ h7a h7b,
      i64_roundtrip _ h8a h8b, i64_roundtrip _ h9a h9b]

theorem decodeChunks_flatten {T : Type} (esize : Nat) (dec : List Nat → T)
    (enc : T → List Nat) (l : List T)
    (hdec : ∀ x ∈ l, dec (enc x) = x) (hlen : ∀ x ∈ l, (enc x).length = esize) :
    decodeChunks esize dec l.length ((l.map enc).flatten) = l := by
  induction l with
  | nil => rfl
  | cons x xs ih =>
      simp only [List.map_cons, List.flatten_cons, List.length_cons, decodeChunks]
      rw [take_append_len _ _ (hlen x (by simp)), drop_append_len _ _ (hlen x (by simp)),
          hdec x (by simp),
          ih (fun y hy => hdec y (by simp [hy])) (fun y hy => hlen y (by simp [hy]))]

theorem length_flatten_const {T : Type} (esize : Nat) (enc : T → List Nat) (l : List T)
    (hlen : ∀ x ∈ l, (enc x).length = esize) :
    ((l.map enc).flatten).length = l.length * esize := by
  induction l with
  | nil => simp
  | cons x xs ih =>
      simp only [List.map_cons, List.flatten_cons, List.length_append, List.length_cons,
        hlen x (by simp), ih (fun y hy => hlen y (by simp [hy]))]
      ring

theorem readBytes_exact {n : Nat} (a b : List Nat) (h : a.length = n) :
    readBytes n ⟨a ++ b, true⟩ = (a, ⟨b, true⟩) := by
  unfold readBytes
  simp only [if_true]
  rw [if_pos (by simp [h])]
  rw [take_append_len _ _ h, drop_append_len _ _ h]

/-- Successful decode of a vector exactly as `WriteVector` serialized it:
under the element round-trip laws and the no-overflow bounds, `ReadVector`
on `WriteVector`'s bytes followed by anything recovers the buffer and
leaves the stream right after the array. -/
theorem ReadVector_WriteVector {T : Type} (esize : Nat) (dec : List Nat → T)
    (enc : T → List Nat) (dflt : T) (buf : List T) (rest : List Nat)
    (hpos : 0 < esize) (hsz : (esize : Int) < 2 ^ 31)
    (hdec : ∀ x ∈ buf, dec (enc x) = x)
    (hlen : ∀ x ∈ buf, (enc x).length = esize)
    (hcount : (buf.length : Int) * esize < 2 ^ 31) :
    ReadVector esize dec dflt ⟨WriteVector esize enc buf ++ rest, true⟩ []
      = .ok buf ⟨rest, true⟩ := by
  have hlen31 : (buf.length : Int) < 2 ^ 31 := by
    have h1 : (buf.length : Int) * 1 ≤ (buf.length : Int) * esize := by
      apply mul_le_mul_of_nonneg_left _ (by positivity)
      exact_mod_cast hpos
    omega
  have hflat : ((buf.map enc).flatten).length = buf.length * esize :=
    length_flatten_const esize enc buf hlen
  unfold WriteVector ReadVector
  rw [show i32le (buf.length : Int) ++ i32le (esize : Int) ++ (buf.map enc).flatten ++ rest
      = (i32le (buf.length : Int) ++ i32le (esize : Int)) ++ ((buf.map enc).flatten ++ rest) by
    simp [List.append_assoc]]
  rw [readBytes_exact _ _ (by simp [length_i32le])]
  simp only
  rw [take_append_len _ _ (length_i32le _), drop_append_len _ _ (length_i32le _),
      take_len _ (length_i32le _)]
  rw [i32_roundtrip (buf.length : Int) (by exact le_trans (by norm_num) (Int.natCast_nonneg _)) hlen31,
      i32_roundtrip (esize : Int) (by exact le_trans (by norm_num) (Int.natCast_nonneg _)) hsz]
  rw [if_neg (by simp), if_neg (by omega)]
  rw [toSizeT_coe esize (by omega), if_pos rfl, if_neg (by omega)]
  rw [show ((buf.length : Int) * (esize : Int)).toNat = buf.length * esize by
    rw [← Nat.cast_mul]; exact Int.toNat_natCast _]
  rw [readBytes_exact _ _ hflat]
  simp only [hflat, Nat.sub_self, List.replicate_zero, List.append_nil]
  rw [show ((buf.length : Int)).toNat = buf.length from Int.toNat_natCast _]
  rw [decodeChunks_flatten esize dec enc buf hdec hlen]
  simp

/-- The per-device loop succeeds on exactly the bytes the write loop
produced, recovering every device's record list in order. -/
theorem readDevLoop_writes (pdd : List (List RecordGpuCtxSw)) (rest : List Nat)
    (hWF : ∀ l ∈ pdd, ∀ r ∈ l, WFRecord r)
    (hcount : ∀ l ∈ pdd, (l.length : Int) * 24 < 2 ^ 31) :
    readDevLoop (List.replicate pdd.length [])
        ⟨(pdd.map (WriteVector 24 encodeRecord)).flatten ++ rest, true⟩
      = .ok pdd ⟨rest, true⟩ := by
  induction pdd generalizing rest with
  | nil => rfl
  | cons l ls ih =>
      simp only [List.length_cons, List.replicate_succ, List.map_cons, List.flatten_cons,
        readDevLoop, List.append_assoc]
      rw [ReadVector_WriteVector 24 decodeRecord encodeRecord zeroRecord l _
        (by norm_num) (by norm_num)
        (fun r hr => decodeRecord_encodeRecord r (hWF l (by simp) r hr))
        (fun r _ => length_encodeRecord r)
        (hcount l (by simp))]
      simp only [ih rest (fun l' h' => hWF l' (List.mem_cons_of_mem l h'))
            (fun l' h' => hcount l' (List.mem_cons_of_mem l h'))]

/-- A successful per-device loop returns as many record lists as it was
given slots. -/
theorem readDevLoop_ok_length (bs : List (List RecordGpuCtxSw)) (s : CStream)
    (out : List (List RecordGpuCtxSw)) (s' : CStream)
    (h : readDevLoop bs s = .ok out s') : out.length = bs.length := by
  induction bs generalizing s out s' with
  | nil =>
      rw [readDevLoop] at h
      cases h
      rfl
  | cons b tl ih =>
      rw [readDevLoop] at h
      cases hv : ReadVector 24 decodeRecord zeroRecord s b with
      | thrown => simp only [hv] at h; exact LoopOutcome.noConfusion h
      | fail buf s2 => simp only [hv] at h; exact LoopOutcome.noConfusion h
      | ok buf s2 =>
          simp only [hv] at h
          cases hl : readDevLoop tl s2 with
          | thrown => simp only [hl] at h; exact LoopOutcome.noConfusion h
          | fail out2 s3 => simp only [hl] at h; exact LoopOutcome.noConfusion h
          | ok out2 s3 =>
              simp only [hl] at h
              cases h
              have hlen2 := ih s2 out2 _ hl
              simp [hlen2]

/-- The per-device loop on exactly the written bytes with nothing after. -/
theorem readDevLoop_writes_exact (pdd : List (List RecordGpuCtxSw))
    (hWF : ∀ l ∈ pdd, ∀ r ∈ l, WFRecord r)
    (hcount : ∀ l ∈ pdd, (l.length : Int) * 24 < 2 ^ 31) :
    readDevLoop (List.replicate pdd.length [])
        ⟨(pdd.map (WriteVector 24 encodeRecord)).flatten, true⟩
      = .ok pdd ⟨[], true⟩ := by
  have h := readDevLoop_writes pdd [] hWF hcount
  simpa using h

/-- C3: for every FileData whose device names are null-terminated within
the 239-byte buffer (content at most 238 bytes), whose fields are
well-formed for their declared machine types, whose per-device list is
index-aligned with the descriptor list, and whose array lengths fit the
32-bit signed count (with the `count * elementSize` byte totals within
`int` range, as the source's arithmetic requires), writing with
WriteFileData and reading the bytes back with ReadFileData succeeds and
returns a FileData equal field-for-field to the original. -/
theorem ReadFileData_WriteFileData_roundtrip (fd fd0 : FileData)
    (hlen : fd.perDeviceData.length = fd.deviceDescs.length)
    (hdev : ∀ d ∈ fd.deviceDescs, WFDeviceDesc d)
    (_hname : ∀ d ∈ fd.deviceDescs, 0 ∈ d.name)
    (hrec : ∀ l ∈ fd.perDeviceData, ∀ r ∈ l, WFRecord r)
    (hdcount : (fd.deviceDescs.length : Int) * 288 < 2 ^ 31)
    (hrcount : ∀ l ∈ fd.perDeviceData, (l.length : Int) * 24 < 2 ^ 31) :
    ReadFileData (WriteFileData fd) fd0 = .success fd := by
  simp only [WriteFileData, ReadFileData, List.append_assoc]
  rw [readBytes_exact magicBytes _ (show magicBytes.length = 8 from rfl)]
  simp only [emptyFileData]
  rw [ReadVector_WriteVector 288 decodeDeviceDesc encodeDeviceDesc zeroDeviceDesc
      fd.deviceDescs _ (by norm_num) (by norm_num)
      (fun d hd => decodeDeviceDesc_encodeDeviceDesc d (hdev d hd))
      (fun d hd => length_encodeDeviceDesc d (hdev d hd))
      hdcount]
  simp only
  rw [← hlen, readDevLoop_writes_exact fd.perDeviceData hrec hrcount]
  simp

/-- C6: ReadFileData on any stream of at least 8 bytes whose first 8 bytes
differ from the magic tag fails, with the out-parameter left in its
freshly reset (empty) state, regardless of all bytes after the first 8. -/
theorem ReadFileData_badMagic (s0 : List Nat) (fd0 : FileData)
    (h8 : 8 ≤ s0.length) (hm : s0.take 8 ≠ magicBytes) :
    ReadFileData s0 fd0 = .failure emptyFileData := by
  simp only [ReadFileData]
  rw [show readBytes 8 ⟨s0, true⟩ = (s0.take 8, ⟨s0.drop 8, true⟩) by
    unfold readBytes; simp [h8]]
  simp [hm]

/-- C6 witness: a concrete all-zero 8-byte stream is rejected. -/
theorem ReadFileData_badMagic_witness :
    8 ≤ (List.replicate 8 0).length ∧ List.replicate 8 (0 : Nat) ≠ magicBytes ∧
      ReadFileData (List.replicate 8 0) emptyFileData = .failure emptyFileData :=
  ⟨by decide, by decide,
    ReadFileData_badMagic (List.replicate 8 0) emptyFileData (by decide)
      (by decide)⟩

/-- C3 witness data: one device, one record, arbitrary small field values. -/
def witnessDevice : DeviceDesc :=
  ⟨List.replicate 16 1, 65 :: List.replicate 238 0, 2, 3, -4, 5, 6⟩

/-- C3 witness data: a record with distinct small field values. -/
def witnessRecord : RecordGpuCtxSw := ⟨1, 2, 3, -5, 7⟩

/-- C3 witness data: the FileData holding the witness device and record. -/
def witnessFileData : FileData := ⟨[witnessDevice], [[witnessRecord]]⟩

/-- C3 witness: the round trip holds at the concrete one-device,
one-record FileData. -/
theorem ReadFileData_WriteFileData_roundtrip_witness :
    witnessFileData.perDeviceData.length = witnessFileData.deviceDescs.length ∧
    (∀ d ∈ witnessFileData.deviceDescs, WFDeviceDesc d) ∧
    ReadFileData (WriteFileData witnessFileData) emptyFileData
      = .success witnessFileData :=
  ⟨by decide, by decide,
    ReadFileData_WriteFileData_roundtrip witnessFileData emptyFileData
      (by decide) (by decide) (by decide) (by decide) (by decide) (by decide)⟩

/-- C8: every successful decode returns as many per-device record lists as
device descriptors, and the concrete zero-device stream (magic tag followed
by a zero-count descriptor array) decodes successfully with both lists
empty. -/
theorem ReadFileData_lengths_match :
    (∀ (s0 : List Nat) (fd0 fd : FileData),
        ReadFileData s0 fd0 = .success fd →
        fd.perDeviceData.length = fd.deviceDescs.length) ∧
    (∀ fd0 : FileData,
        ReadFileData (magicBytes ++ i32le 0 ++ i32le 288) fd0
          = .success emptyFileData) := by
  constructor
  · intro s0 fd0 fd h
    simp only [ReadFileData] at h
    by_cases h1 : (readBytes 8 ⟨s0, true⟩).2.good = false
    · rw [if_pos h1] at h; cases h
    · rw [if_neg h1] at h
      by_cases h2 : (readBytes 8 ⟨s0, true⟩).1 ≠ magicBytes
      · rw [if_pos h2] at h; cases h
      · rw [if_neg h2] at h
        cases hv : ReadVector 288 decodeDeviceDesc zeroDeviceDesc
            (readBytes 8 ⟨s0, true⟩).2 emptyFileData.deviceDescs with
        | thrown => simp only [hv] at h; exact DecodeOutcome.noConfusion h
        | fail buf s2 => simp only [hv] at h; exact DecodeOutcome.noConfusion h
        | ok buf s2 =>
            simp only [hv] at h
            cases hl : readDevLoop (List.replicate buf.length []) s2 with
            | thrown => simp only [hl] at h; exact DecodeOutcome.noConfusion h
            | fail pdd s3 => simp only [hl] at h; exact DecodeOutcome.noConfusion h
            | ok pdd s3 =>
                simp only [hl] at h
                cases h
                have hn := readDevLoop_ok_length _ _ _ _ hl
                simpa using hn
  · intro fd0
    rfl

/-- C8 witness: the theorem applied at the concrete zero-device stream. -/
theorem ReadFileData_lengths_match_witness :
    ReadFileData (magicBytes ++ i32le 0 ++ i32le 288) emptyFileData
        = .success emptyFileData ∧
    emptyFileData.perDeviceData.length = emptyFileData.deviceDescs.length :=
  ⟨ReadFileData_lengths_match.2 emptyFileData,
   ReadFileData_lengths_match.1 _ emptyFileData emptyFileData
     (ReadFileData_lengths_match.2 emptyFileData)⟩

/-- C1: on an array whose on-disk elementSize (25) exceeds the native
record size (24), the source's loop reads 24 bytes per record back to back
and never skips the extra on-disk byte, so the second record is decoded
from the first record's trailing byte plus 23 bytes of the second on-disk
record, and the stream is left 2 bytes short of the array's end - not, as
the claim states, advanced by the full 25-byte stride with the trailing
bytes skipped. -/
theorem ReadVector_larger_element_no_skip :
    ReadVector 24 decodeRecord zeroRecord
        ⟨i32le 2 ++ i32le 25 ++
          (encodeRecord ⟨1, 1, 1, 1, 1⟩ ++ [170] ++ encodeRecord ⟨2, 2, 2, 2, 2⟩ ++ [187]),
          true⟩ []
      = .ok [⟨1, 1, 1, 1, 1⟩, ⟨682, 512, 512, 512, 512⟩] ⟨[0, 187], true⟩ ∧
    ReadVector 24 decodeRecord zeroRecord
        ⟨i32le 2 ++ i32le 25 ++
          (encodeRecord ⟨1, 1, 1, 1, 1⟩ ++ [170] ++ encodeRecord ⟨2, 2, 2, 2, 2⟩ ++ [187]),
          true⟩ []
      ≠ .ok [⟨1, 1, 1, 1, 1⟩, ⟨2, 2, 2, 2, 2⟩] ⟨[], true⟩ := by
  decide

/-- C5 counterexample: a negative on-disk elementSize (-1), which is
strictly smaller than the native record size 24, does not fail: the C++
int-to-size_t conversion in the comparison makes -1 huge, the read takes
the newer-format branch, and with count 1 and 24 stream bytes it returns
the ok outcome. -/
theorem ReadVector_negative_elementSize_succeeds :
    ReadVector 24 decodeRecord zeroRecord
        ⟨i32le 1 ++ i32le (-1) ++ List.replicate 24 0, true⟩ []
      = .ok [zeroRecord] ⟨[], true⟩ ∧ (-1 : Int) < 24 := by
  decide

/-- C5 amended: for every array read whose on-disk elementSize is
non-negative and strictly smaller than the native record size, ReadVector
returns the failing outcome (the buffer holds only the value-initialized
resize, never silently passed off as decoded data). -/
theorem ReadVector_smaller_element_fails {T : Type} (esize : Nat)
    (dec : List Nat → T) (dflt : T) (count esz : Int) (payload : List Nat)
    (buffer : List T)
    (hc0 : 0 ≤ count) (hc31 : count < 2 ^ 31)
    (he0 : 0 ≤ esz) (he : esz.toNat < esize) (hes : (esize : Int) ≤ 2 ^ 31) :
    ReadVector esize dec dflt ⟨i32le count ++ i32le esz ++ payload, true⟩ buffer
      = .fail (resizeL buffer count.toNat dflt) ⟨payload, true⟩ := by
  have hesz31 : esz < 2 ^ 31 := by omega
  unfold ReadVector
  rw [show i32le count ++ i32le esz ++ payload = (i32le count ++ i32le esz) ++ payload by
    simp]
  rw [readBytes_exact _ _ (show (i32le count ++ i32le esz).length = 8 by
    simp [length_i32le])]
  simp only
  rw [take_append_len _ _ (length_i32le _), drop_append_len _ _ (length_i32le _),
      take_len _ (length_i32le _)]
  rw [i32_roundtrip count (by omega) hc31, i32_roundtrip esz (by omega) hesz31]
  rw [if_neg (by simp), if_neg (by omega)]
  have ht : toSizeT esz = esz.toNat := by
    unfold toSizeT
    rw [Int.emod_eq_of_lt he0 (by omega)]
  rw [ht, if_neg (by omega), if_neg (by omega)]

/-- C5 amended witness: elementSize 16 against native size 24 fails. -/
theorem ReadVector_smaller_element_fails_witness :
    ReadVector 24 decodeRecord zeroRecord
        ⟨i32le 1 ++ i32le 16 ++ List.replicate 24 0, true⟩ []
      = .fail (resizeL [] (1 : Int).toNat zeroRecord) ⟨List.replicate 24 0, true⟩ :=
  ReadVector_smaller_element_fails 24 decodeRecord zeroRecord 1 16
    (List.replicate 24 0) [] (by decide) (by decide) (by decide) (by decide)
    (by decide)

/-- C4 counterexample: the concrete stream holding the magic tag, a valid
one-device descriptor array, and then nothing, makes ReadFileData fail,
yet the out-parameter holds the decoded device and a resized per-device
slot - a partially-populated FileData visible to the caller. -/
theorem ReadFileData_partial_on_failure :
    ReadFileData (magicBytes ++ i32le 1 ++ i32le 288 ++ List.replicate 288 0)
        emptyFileData
      = .failure ⟨[zeroDeviceDesc], [[]]⟩ ∧
    (⟨[zeroDeviceDesc], [[]]⟩ : FileData) ≠ emptyFileData := by
  decide

/-- C4 amended: ReadFileData resets the out-parameter at entry, so while a
failed decode may leave partial results decoded from this very stream in
it, its final contents never depend on (and never retain) anything the
caller had stored there before the call. -/
theorem ReadFileData_ignores_prior (s0 : List Nat) (fd0 fd0' : FileData) :
    ReadFileData s0 fd0 = ReadFileData s0 fd0' := rfl

/-- C2 counterexample: at srcStart 0, srcEnd 4, dstStart 0, dstEnd 1
(scale one quarter, all doubles exact), applying the converter to 1 gives
1 (the cast truncates -0.75 toward zero), while the claim's
round-to-nearest formula gives 0. -/
theorem converter_truncates_not_rounds :
    (CreateTimestampConverter 0 4 0 1).apply 1 ≠ specApplyRound 0 4 0 1 1 ∧
    (CreateTimestampConverter 0 4 0 1).apply 1 = 1 ∧
    specApplyRound 0 4 0 1 1 = 0 := by
  have h1 : (CreateTimestampConverter 0 4 0 1).apply 1 = 1 := by
    norm_num [CreateTimestampConverter, TimestampConverter.apply, ratTrunc]
  have h2 : specApplyRound 0 4 0 1 1 = 0 := by
    norm_num [specApplyRound, specScale, round_eq]
  exact ⟨by rw [h1, h2]; decide, h1, h2⟩

/-- C2 amended: the converter stores the end sync points as its anchors,
and applying it computes the spec's formula with truncation toward zero
(the semantics of the int64 cast) in place of rounding to nearest; the
result is a pure function of the three stored parameters. -/
theorem converter_apply_eq_truncFormula (srcStart srcEnd dstStart dstEnd x : Int) :
    (CreateTimestampConverter srcStart srcEnd dstStart dstEnd).srcAtSyncPoint = srcEnd ∧
    (CreateTimestampConverter srcStart srcEnd dstStart dstEnd).dstAtSyncPoint = dstEnd ∧
    (CreateTimestampConverter srcStart srcEnd dstStart dstEnd).apply x
      = specApplyTrunc srcStart srcEnd dstStart dstEnd x := by
  refine ⟨rfl, rfl, ?_⟩
  unfold CreateTimestampConverter TimestampConverter.apply specApplyTrunc specScale
  simp only
  by_cases h : srcEnd - srcStart = 0
  · have h' : srcEnd = srcStart := by omega
    simp [h, h']
  · have h' : ¬(srcEnd = srcStart) := by omega
    rw [if_neg h, if_neg h']
    rw [mul_comm]

/-- C7: a converter built with srcStart equal to srcEnd has scale exactly
0, and applying it to any source timestamp returns exactly dstEnd, the
destination anchor (in particular a well-defined integer, with no
division performed). -/
theorem converter_degenerate_span (srcSync dstStart dstEnd x : Int) :
    (CreateTimestampConverter srcSync srcSync dstStart dstEnd).scale = 0 ∧
    (CreateTimestampConverter srcSync srcSync dstStart dstEnd).apply x = dstEnd := by
  constructor
  · simp [CreateTimestampConverter]
  · simp [CreateTimestampConverter, TimestampConverter.apply, ratTrunc]

/-- C9: SetName writes at most 238 bytes of the input followed by a null
terminator into the 239-byte field: the null lands at index
min(inputLength, 238), and for inputs of at least 238 bytes (such as the
claim's 300-character name) byte 238 is null while bytes 0..237 are the
input's first 238 bytes unmodified. -/
theorem SetName_truncates_with_null (desc : DeviceDesc) (input : List Nat)
    (hold : desc.name.length = 239) :
    ((SetName desc input).name.length = 239 ∧
      ((SetName desc input).name)[min input.length 238]? = some 0) ∧
    (238 ≤ input.length →
      ((SetName desc input).name)[238]? = some 0 ∧
      ((SetName desc input).name).take 238 = input.take 238) := by
  have hname : (SetName desc input).name
      = input.take (min input.length 238) ++
          ([0] ++ desc.name.drop (min input.length 238 + 1)) := by
    simp only [SetName]
    simp [List.append_assoc]
  have hA : (input.take (min input.length 238)).length = min input.length 238 := by
    simp
  refine ⟨⟨?_, ?_⟩, fun h238 => ⟨?_, ?_⟩⟩
  · rw [hname]
    simp [hold]
    omega
  · rw [hname, List.getElem?_append_right (by omega)]
    simp [hA]
  · have hm : min input.length 238 = 238 := by omega
    rw [hname, hm, List.getElem?_append_right (by simp)]
    have hlen238 : (input.take 238).length = 238 := by simp; omega
    simp [hlen238]
  · have hm : min input.length 238 = 238 := by omega
    rw [hname, hm, take_append_len _ _ (by simp; omega)]

/-- C9 witness: the theorem at a 300-character input over a zeroed
device. -/
theorem SetName_truncates_with_null_witness :
    ((SetName zeroDeviceDesc (List.replicate 300 65)).name.length = 239 ∧
      ((SetName zeroDeviceDesc (List.replicate 300 65)).name)[min (List.replicate 300 (65 : Nat)).length 238]? = some 0) ∧
    (((SetName zeroDeviceDesc (List.replicate 300 65)).name)[238]? = some 0 ∧
      ((SetName zeroDeviceDesc (List.replicate 300 65)).name).take 238
        = (List.replicate 300 (65 : Nat)).take 238) :=
  ⟨(SetName_truncates_with_null zeroDeviceDesc (List.replicate 300 65) (by decide)).1,
   (SetName_truncates_with_null zeroDeviceDesc (List.replicate 300 65) (by decide)).2
     (by decide)⟩

/-- C10: the adapter's event-name lookup indexes the fixed 3-element label
array with the record's type: it is in bounds exactly for type values 0,
1, 2, and out of bounds (modelled as none) for any type 3 or greater; and
ReadFileData accepts a stream carrying a record with type 3 without any
validation, decoding it successfully. -/
theorem adapt_events_name_index :
    (∀ r : RecordGpuCtxSw, r.type ≤ 2 → (adaptedEventName r).isSome = true) ∧
    (∀ r : RecordGpuCtxSw, 3 ≤ r.type → adaptedEventName r = none) ∧
    ReadFileData (magicBytes ++ i32le 1 ++ i32le 288 ++ List.replicate 288 0 ++
        i32le 1 ++ i32le 24 ++ encodeRecord ⟨1, 3, 0, 0, 0⟩) emptyFileData
      = .success ⟨[zeroDeviceDesc], [[⟨1, 3, 0, 0, 0⟩]]⟩ := by
  refine ⟨?_, ?_, by decide⟩
  · intro r h
    have hlt : r.type < namehack.length := by simp [namehack]; omega
    simp [adaptedEventName, List.getElem?_eq_getElem hlt]
  · intro r h
    exact List.getElem?_eq_none (by simp [namehack]; omega)

/-- C10 witness: in-bounds at type 2, out of bounds at type 3. -/
theorem adapt_events_name_index_witness :
    (adaptedEventName ⟨1, 2, 0, 0, 0⟩).isSome = true ∧
    adaptedEventName ⟨1, 3, 0, 0, 0⟩ = none :=
  ⟨adapt_events_name_index.1 ⟨1, 2, 0, 0, 0⟩ (by decide),
   adapt_events_name_index.2.1 ⟨1, 3, 0, 0, 0⟩ (by decide)⟩

end NvTraceFormat
